import Mathlib

/-!
Verification development for the advanced NTAG/MIFARE Ultralight tag-analysis
core of community-cordova-plugin-nfc.  The repository ships only the TypeScript
declarations (`types/index.d.ts`); the behavioural components (CommandBuilder,
TagTypeRegistry, ResponseParser, PasswordProtectionAnalyzer,
MemoryDumpOrchestrator) are modelled here from the specification, faithful to
its words, and the claims are settled against these models.

Conventions: a byte is a `Nat` (< 256 where it matters), a frame or buffer is a
`List Nat`, the collaborator `transceive` is a function from a command frame to
`Except TagError (List Nat)`, and fallible operations return `Except`.
-/

set_option maxHeartbeats 1000000
set_option linter.unusedVariables false

/-- Error taxonomy from the spec's error-handling design: transport failures,
NAK on an optional command, and frame-contract violations. -/
inductive TagError where
  | tagCommunication : String → TagError
  | unsupportedCommand : String → TagError
  | malformedResponse : String → TagError
deriving Repr, DecidableEq

/-- Render an error as the message string stored in a dump result's `error`
field.  Every rendered message carries a non-empty classifying prefix. -/
def TagError.message : TagError → String
  | .tagCommunication m => "TagCommunicationError: " ++ m
  | .unsupportedCommand m => "UnsupportedCommandError: " ++ m
  | .malformedResponse m => "MalformedResponseError: " ++ m

/-- The single collaborator operation: an already-connected tag session's
request/response primitive. -/
def Transceive : Type := List Nat → Except TagError (List Nat)

namespace NfcUtil

/-- Lowercase hex digit for a nibble value (0–15). -/
def hexDigit (n : Nat) : Char :=
  if n < 10 then Char.ofNat (48 + n) else Char.ofNat (87 + n)

/-- Two lowercase hex characters per byte, no separators, as a char list. -/
def bytesToHexChars : List Nat → List Char
  | [] => []
  | b :: bs => hexDigit (b / 16) :: hexDigit (b % 16) :: bytesToHexChars bs

/-- Modelled from the spec: the general-purpose byte-to-hex contract used by
all exposed results (`IUtil.bytesToHexString`) — lowercase, 2 characters per
byte, no delimiters.  The implementation is absent from `src/`. -/
def bytesToHexString (bs : List Nat) : String :=
  String.mk (bytesToHexChars bs)

/-- Value of one lowercase hex character, `none` on anything else. -/
def hexDigitVal (c : Char) : Option Nat :=
  if 48 ≤ c.toNat ∧ c.toNat ≤ 57 then some (c.toNat - 48)
  else if 97 ≤ c.toNat ∧ c.toNat ≤ 102 then some (c.toNat - 87)
  else none

/-- Decode a lowercase hex char list back to bytes; `none` on odd length or a
non-hex character. -/
def hexDecodeChars : List Char → Option (List Nat)
  | [] => some []
  | [_] => none
  | c1 :: c2 :: rest =>
    match hexDigitVal c1, hexDigitVal c2, hexDecodeChars rest with
    | some h, some l, some tl => some ((16 * h + l) :: tl)
    | _, _, _ => none

/-- Decode a hex string back to the byte sequence it encodes. -/
def hexDecode (s : String) : Option (List Nat) :=
  hexDecodeChars s.data

/-- A character of the lowercase hex alphabet `0-9a-f`. -/
def isLowerHexDigit (c : Char) : Bool :=
  (48 ≤ c.toNat && c.toNat ≤ 57) || (97 ≤ c.toNat && c.toNat ≤ 102)

end NfcUtil

namespace CommandBuilder

/-- Modelled from the spec: READ frame `[0x30, startPage]`; the tag always
answers with 4 pages (16 bytes).  Implementation absent from `src/`. -/
def read (startPage : Nat) : List Nat := [0x30, startPage]

/-- Modelled from the spec: GET_VERSION frame `[0x60]`. -/
def getVersion : List Nat := [0x60]

/-- Modelled from the spec: READ_CNT frame `[0x39, 0x02]` — the tap counter is
always addressed at index 2. -/
def readCounter : List Nat := [0x39, 0x02]

/-- Modelled from the spec: READ_SIG frame `[0x3C, 0x00]`. -/
def readSignature : List Nat := [0x3C, 0x00]

end CommandBuilder

/-- Static memory-layout descriptor for an IC family. -/
structure TagTypeDescriptor where
  icType : String
  pageSize : Nat
  totalPages : Nat
  defaultConfigPageOffset : Nat
deriving Repr, DecidableEq

namespace TagTypeRegistry

/-- Modelled from the spec: the "Unknown" descriptor with a conservative
default page count of 16, used whenever version detection fails or matches no
table entry. -/
def unknownDescriptor : TagTypeDescriptor :=
  { icType := "Unknown", pageSize := 4, totalPages := 16, defaultConfigPageOffset := 12 }

/-- Modelled from the spec: the static table over known NTAG21x and MIFARE
Ultralight EV1 families, keyed by the exact (productType, storageSize) pair;
page counts and config-page offsets follow the vendor datasheets the spec
defers to.  Implementation absent from `src/`. -/
def table : List (Nat × Nat × TagTypeDescriptor) :=
  [ (0x04, 0x0F, { icType := "NTAG213", pageSize := 4, totalPages := 45, defaultConfigPageOffset := 41 }),
    (0x04, 0x11, { icType := "NTAG215", pageSize := 4, totalPages := 135, defaultConfigPageOffset := 131 }),
    (0x04, 0x13, { icType := "NTAG216", pageSize := 4, totalPages := 231, defaultConfigPageOffset := 227 }),
    (0x03, 0x0B, { icType := "MIFARE Ultralight EV1 (MF0UL11)", pageSize := 4, totalPages := 20, defaultConfigPageOffset := 16 }),
    (0x03, 0x0E, { icType := "MIFARE Ultralight EV1 (MF0UL21)", pageSize := 4, totalPages := 41, defaultConfigPageOffset := 37 }) ]

/-- Exact-match search of the static table on (productType, storageSize). -/
def findEntry (productType storageSize : Nat) : Option TagTypeDescriptor :=
  (table.find? (fun e => e.1 == productType && e.2.1 == storageSize)).map (fun e => e.2.2)

/-- Modelled from the spec: `lookup(productType, storageSize, productSubtype)`;
matching ignores the subtype (exact pair match), and a miss falls back to the
"Unknown" descriptor rather than failing. -/
def lookup (productType storageSize productSubtype : Nat) : TagTypeDescriptor :=
  (findEntry productType storageSize).getD unknownDescriptor

end TagTypeRegistry

/-- Decoded GET_VERSION reply (`INtagVersionInfo`). -/
structure NtagVersionInfo where
  vendorId : Nat
  productType : Nat
  productSubtype : Nat
  majorVersion : Nat
  minorVersion : Nat
  storageSize : Nat
  protocolType : Nat
  icType : String
deriving Repr, DecidableEq

/-- Decoded config-page protection bits (`INtagPasswordStatus`). -/
structure PasswordProtectionStatus where
  protectionStartPage : Nat
  isProtected : Bool
  readProtected : Bool
  writeProtected : Bool
  authLimitEnabled : Bool
  authLimitCounter : Nat
deriving Repr, DecidableEq

/-- Outcome of a full dump attempt (`IFullMemoryDump`); `memoryDump` is
nullable exactly as in the declarations file. -/
structure MemoryDumpResult where
  success : Bool
  tagType : String
  version : Option NtagVersionInfo
  totalPages : Nat
  memoryDump : Option (List Nat)
  hexDump : String
  error : Option String
deriving Repr, DecidableEq

namespace ResponseParser

/-- Modelled from the spec: decode the 8-byte GET_VERSION reply, failing with
`MalformedResponseError` on any other length.  The spec's §8 fixture
`00 04 04 02 01 00 11 03` must resolve to an NTAG215-class descriptor, which
fixes the offset convention: byte 0 is the fixed response header, fields
vendorId…protocolType sit at offsets 1–7, and `icType` is resolved through
`TagTypeRegistry.lookup`.  Implementation absent from `src/`. -/
def parseVersion (bytes : List Nat) : Except TagError NtagVersionInfo :=
  if bytes.length = 8 then
    let productType := bytes.getD 2 0
    let productSubtype := bytes.getD 3 0
    let storageSize := bytes.getD 6 0
    let d := TagTypeRegistry.lookup productType storageSize productSubtype
    .ok { vendorId := bytes.getD 1 0
          productType := productType
          productSubtype := productSubtype
          majorVersion := bytes.getD 4 0
          minorVersion := bytes.getD 5 0
          storageSize := storageSize
          protocolType := bytes.getD 7 0
          icType := d.icType }
  else .error (.malformedResponse "GET_VERSION response must be 8 bytes")

/-- Modelled from the spec: decode the 3-byte READ_CNT reply as a big-endian
24-bit unsigned integer, failing on any other length. -/
def parseCounter (bytes : List Nat) : Except TagError Nat :=
  if bytes.length = 3 then
    .ok (bytes.getD 0 0 * 65536 + bytes.getD 1 0 * 256 + bytes.getD 2 0)
  else .error (.malformedResponse "READ_CNT response must be 3 bytes")

/-- Modelled from the spec: the 32-byte READ_SIG reply, failing on any other
length. -/
def parseSignature (bytes : List Nat) : Except TagError (List Nat) :=
  if bytes.length = 32 then .ok bytes
  else .error (.malformedResponse "READ_SIG response must be 32 bytes")

/-- Modelled from the spec: truncate the 16-byte READ response to the caller's
requested page count; a response shorter than the fixed 16-byte frame is a
`TagCommunicationError`, never zero-padded. -/
def parsePages (bytes : List Nat) (requestedStartPage requestedPageCount : Nat) : Except TagError (List Nat) :=
  if bytes.length < 16 then
    .error (.tagCommunication "READ response shorter than 16 bytes")
  else .ok (bytes.take (4 * requestedPageCount))

end ResponseParser

namespace PasswordProtectionAnalyzer

/-- Modelled from the spec: decode the config pages — AUTH0 (protection start
page) is the last byte of the first config page (offset 3), the access-control
byte is the first byte of the second config page (offset 4); its top bit
selects read+write vs. write-only protection, bit 6 is the configuration lock,
and the low 3 bits are the authentication-attempt limit.  Protection is active
iff AUTH0 lies inside the descriptor's page range.  Implementation absent from
`src/`. -/
def analyze (configPageBytes : List Nat) (d : TagTypeDescriptor) : PasswordProtectionStatus :=
  let auth0 := configPageBytes.getD 3 0xFF
  let access := configPageBytes.getD 4 0
  let protBit : Bool := access / 128 % 2 == 1
  let authLim := access % 8
  let active : Bool := decide (auth0 < d.totalPages)
  let writeProt : Bool := active
  let readProt : Bool := active && protBit
  { protectionStartPage := auth0
    isProtected := active && (readProt || writeProt)
    readProtected := readProt
    writeProtected := writeProt
    authLimitEnabled := authLim != 0
    authLimitCounter := authLim }

end PasswordProtectionAnalyzer

namespace Accessors

/-- Modelled from the spec: `readMemoryPages(startPage, numPages)` — iterate
READ commands in 4-page blocks, truncating the final block to the requested
count, surfacing any failure directly.  Recursion is on the number of blocks
still to read.  Implementation absent from `src/`. -/
def readMemoryPagesAux (t : Transceive) : Nat → Nat → Nat → Except TagError (List Nat)
  | _, _, 0 => .ok []
  | startPage, numPages, b + 1 =>
    match t (CommandBuilder.read startPage) with
    | .error e => .error e
    | .ok resp =>
      match ResponseParser.parsePages resp startPage (min 4 numPages) with
      | .error e => .error e
      | .ok bytes =>
        match readMemoryPagesAux t (startPage + 4) (numPages - 4) b with
        | .error e => .error e
        | .ok rest => .ok (bytes ++ rest)

/-- Modelled from the spec: the `readMemoryPages` accessor — rounds the
request up to whole 4-page blocks and truncates to the requested count. -/
def readMemoryPages (t : Transceive) (startPage numPages : Nat) : Except TagError (List Nat) :=
  readMemoryPagesAux t startPage numPages ((numPages + 3) / 4)

/-- Modelled from the spec: the `getNtagVersion` accessor — one GET_VERSION
command, parsed, every failure surfaced directly. -/
def getNtagVersion (t : Transceive) : Except TagError NtagVersionInfo :=
  match t CommandBuilder.getVersion with
  | .error e => .error e
  | .ok r => ResponseParser.parseVersion r

/-- Modelled from the spec: the `readNtagCounter` accessor — one READ_CNT
command, parsed as the 24-bit counter. -/
def readNtagCounter (t : Transceive) : Except TagError Nat :=
  match t CommandBuilder.readCounter with
  | .error e => .error e
  | .ok r => ResponseParser.parseCounter r

/-- Modelled from the spec: the `readNtagSignature` accessor — one READ_SIG
command, parsed as the 32-byte signature. -/
def readNtagSignature (t : Transceive) : Except TagError (List Nat) :=
  match t CommandBuilder.readSignature with
  | .error e => .error e
  | .ok r => ResponseParser.parseSignature r

/-- Modelled from the spec: the `getPasswordProtectionStatus` accessor — read
two config pages (explicit page number, or the descriptor's default offset
when omitted) and decode them with the analyzer. -/
def getPasswordProtectionStatus (t : Transceive) (d : TagTypeDescriptor) (configPage : Option Nat) : Except TagError PasswordProtectionStatus :=
  match t (CommandBuilder.read (configPage.getD d.defaultConfigPageOffset)) with
  | .error e => .error e
  | .ok resp =>
    match ResponseParser.parsePages resp (configPage.getD d.defaultConfigPageOffset) 2 with
    | .error e => .error e
    | .ok bytes => .ok (PasswordProtectionAnalyzer.analyze bytes d)

end Accessors

namespace MemoryDumpOrchestrator

/-- Modelled from the spec: the `VersionDetect` step — issue GET_VERSION; on
success resolve tag type and page count via the registry; on transceive
failure or a malformed response continue with "Unknown" and the conservative
fallback page count instead of aborting.  Implementation absent from `src/`. -/
def versionDetect (t : Transceive) : String × Option NtagVersionInfo × Nat :=
  match t CommandBuilder.getVersion with
  | .error _ => ("Unknown", none, TagTypeRegistry.unknownDescriptor.totalPages)
  | .ok r =>
    match ResponseParser.parseVersion r with
    | .error _ => ("Unknown", none, TagTypeRegistry.unknownDescriptor.totalPages)
    | .ok v =>
      let d := TagTypeRegistry.lookup v.productType v.storageSize v.productSubtype
      (d.icType, some v, d.totalPages)

/-- Modelled from the spec: the `PagedRead` loop — read blocks of 4 pages
starting at page 0, truncating the final block, stopping at the first failed
READ while keeping all bytes collected so far and recording the error.
Arguments: current block index, blocks remaining (the recursion measure), and
the total page count. -/
def readBlocks (t : Transceive) : Nat → Nat → Nat → List Nat × Option TagError
  | _, 0, _ => ([], none)
  | s, b + 1, total =>
    match t (CommandBuilder.read (s * 4)) with
    | .error e => ([], some e)
    | .ok resp =>
      match ResponseParser.parsePages resp (s * 4) (min 4 (total - s * 4)) with
      | .error e => ([], some e)
      | .ok bytes =>
        (bytes ++ (readBlocks t (s + 1) b total).1, (readBlocks t (s + 1) b total).2)

/-- The accumulated buffer and recorded error of one full dump run. -/
def dumpRun (t : Transceive) : List Nat × Option TagError :=
  let total := (versionDetect t).2.2
  readBlocks t 0 ((total + 3) / 4) total

/-- Modelled from the spec: the full-dump state machine
`Idle → VersionDetect → PagedRead → {Complete | PartialFailure}` — assemble
the result: lowercase hex of the accumulated buffer, `success` true only for a
complete buffer with no recorded error, `memoryDump` null when nothing was
collected.  Implementation absent from `src/`. -/
def fullMemoryDump (t : Transceive) : MemoryDumpResult :=
  let vd := versionDetect t
  let run := dumpRun t
  { success := (run.1.length == vd.2.2 * 4) && run.2.isNone
    tagType := vd.1
    version := vd.2.1
    totalPages := vd.2.2
    memoryDump := if run.1 = [] then none else some run.1
    hexDump := NfcUtil.bytesToHexString run.1
    error := run.2.map TagError.message }

end MemoryDumpOrchestrator

/-- Concatenation of the 16-byte block responses `rs s, rs (s+1), …` for `n`
blocks, in original page order. -/
def concatBlocks (rs : Nat → List Nat) : Nat → Nat → List Nat
  | _, 0 => []
  | s, n + 1 => rs s ++ concatBlocks rs (s + 1) n

/-- A tag whose GET_VERSION is NAKed while every READ answers 16 bytes of
`0xAB`; used as a concrete session for the hex/success contract. -/
def tagHexDemo : Transceive := fun c =>
  if c.getD 0 0 = 0x30 then .ok (List.replicate 16 0xAB)
  else .error (.unsupportedCommand "NAK")

/-- A tag whose GET_VERSION is NAKed while every READ answers 16 bytes of
`0x5A`; used as a concrete session for the degrade-not-fail policy. -/
def tagVersionNak : Transceive := fun c =>
  if c.getD 0 0 = 0x30 then .ok (List.replicate 16 0x5A)
  else .error (.unsupportedCommand "NAK")

/-- A tag that answers READ of page 0 with 16 bytes of `0x07` and times out on
everything else; used as a concrete session for mid-dump READ failure. -/
def tagReadTimeout : Transceive := fun c =>
  if c = CommandBuilder.read 0 then .ok (List.replicate 16 0x07)
  else .error (.tagCommunication "timeout")

/-- A tag on which every command times out; used as the concrete session where
no page bytes are collected at all. -/
def tagDead : Transceive := fun _ => .error (.tagCommunication "timeout")

/-- A tag that answers READ of page 5 with the bytes `0..15`; used as a
concrete session for the page-truncation contract. -/
def tagPagesDemo : Transceive := fun c =>
  if c = CommandBuilder.read 5 then .ok (List.range 16)
  else .error (.tagCommunication "timeout")

/-- A tag whose READ_CNT answers the 3-byte frame `[0x00, 0x01, 0x2C]`; used
as a concrete session for the counter contract. -/
def tagCounterDemo : Transceive := fun c =>
  if c = CommandBuilder.readCounter then .ok [0x00, 0x01, 0x2C]
  else .error (.tagCommunication "timeout")

namespace NfcUtil

theorem hexDigitVal_hexDigit : ∀ n, n < 16 → hexDigitVal (hexDigit n) = some n := by decide

theorem isLowerHexDigit_hexDigit : ∀ n, n < 16 → isLowerHexDigit (hexDigit n) = true := by decide

theorem bytesToHexChars_length (bs : List Nat) : (bytesToHexChars bs).length = 2 * bs.length := by
  induction bs with
  | nil => rfl
  | cons b bs ih => simp [bytesToHexChars, ih]; omega

theorem hexDecodeChars_bytesToHexChars (bs : List Nat) (h : ∀ b ∈ bs, b < 256) :
    hexDecodeChars (bytesToHexChars bs) = some bs := by
  induction bs with
  | nil => rfl
  | cons b bs ih =>
    have hb : b < 256 := h b (List.mem_cons_self _ _)
    have h1 : b / 16 < 16 := by omega
    have h2 : b % 16 < 16 := by omega
    have ihr := ih (fun x hx => h x (List.mem_cons_of_mem _ hx))
    simp [bytesToHexChars, hexDecodeChars, hexDigitVal_hexDigit _ h1,
      hexDigitVal_hexDigit _ h2, ihr]
    omega

theorem bytesToHexChars_all_lower (bs : List Nat) (h : ∀ b ∈ bs, b < 256) :
    (bytesToHexChars bs).all isLowerHexDigit = true := by
  induction bs with
  | nil => rfl
  | cons b bs ih =>
    have hb : b < 256 := h b (List.mem_cons_self _ _)
    have h1 : b / 16 < 16 := by omega
    have h2 : b % 16 < 16 := by omega
    have ihr := ih (fun x hx => h x (List.mem_cons_of_mem _ hx))
    simp [bytesToHexChars, List.all_cons, isLowerHexDigit_hexDigit _ h1,
      isLowerHexDigit_hexDigit _ h2, ihr]

theorem bytesToHexString_length (bs : List Nat) :
    (bytesToHexString bs).length = 2 * bs.length :=
  bytesToHexChars_length bs

theorem hexDecode_bytesToHexString (bs : List Nat) (h : ∀ b ∈ bs, b < 256) :
    hexDecode (bytesToHexString bs) = some bs :=
  hexDecodeChars_bytesToHexChars bs h

end NfcUtil

namespace ResponseParser

theorem parsePages_ok (bytes : List Nat) (s c : Nat) (h : 16 ≤ bytes.length) :
    parsePages bytes s c = .ok (bytes.take (4 * c)) := by
  simp [parsePages, Nat.not_lt.mpr h]

theorem parsePages_short (bytes : List Nat) (s c : Nat) (h : bytes.length < 16) :
    parsePages bytes s c = .error (.tagCommunication "READ response shorter than 16 bytes") := by
  simp [parsePages, h]

end ResponseParser

namespace MemoryDumpOrchestrator

theorem readBlocks_mem (t : Transceive) :
    ∀ b s total x, x ∈ (readBlocks t s b total).1 → ∃ c r, t c = .ok r ∧ x ∈ r := by
  intro b
  induction b with
  | zero =>
    intro s total x hx
    simp [readBlocks] at hx
  | succ b ih =>
    intro s total x hx
    unfold readBlocks at hx
    cases ht : t (CommandBuilder.read (s * 4)) with
    | error e => rw [ht] at hx; simp at hx
    | ok resp =>
      rw [ht] at hx
      dsimp only at hx
      by_cases hlen : resp.length < 16
      · rw [ResponseParser.parsePages_short resp _ _ hlen] at hx
        simp at hx
      · rw [ResponseParser.parsePages_ok resp _ _ (Nat.not_lt.mp hlen)] at hx
        simp at hx
        rcases hx with h1 | h2
        · exact ⟨_, resp, ht, List.take_subset _ _ h1⟩
        · exact ih (s + 1) total x h2

theorem readBlocks_allOk (t : Transceive) :
    ∀ b s total,
      (∀ i, i < b → ∃ r, t (CommandBuilder.read ((s + i) * 4)) = .ok r ∧ r.length = 16) →
      (s + b) * 4 ≤ total →
      (readBlocks t s b total).1.length = b * 16 ∧ (readBlocks t s b total).2 = none := by
  intro b
  induction b with
  | zero => intro s total h htot; exact ⟨rfl, rfl⟩
  | succ b ih =>
    intro s total h htot
    obtain ⟨r0, hr0, hlen0⟩ := h 0 (Nat.succ_pos b)
    rw [show s + 0 = s from rfl] at hr0
    have hwanted : min 4 (total - s * 4) = 4 := by omega
    have hrest := ih (s + 1) total
      (fun i hi => by
        have hh := h (i + 1) (by omega)
        rwa [show s + (i + 1) = s + 1 + i by omega] at hh)
      (by omega)
    unfold readBlocks
    rw [hr0, hwanted]
    dsimp only
    rw [ResponseParser.parsePages_ok r0 _ 4 (by omega)]
    simp [hrest.1, hrest.2, List.length_take, hlen0]
    omega

theorem readBlocks_stopsAt (t : Transceive) (rs : Nat → List Nat) (e : TagError) :
    ∀ N s b total, N < b → (s + N) * 4 < total →
      (∀ i, i < N → t (CommandBuilder.read ((s + i) * 4)) = .ok (rs (s + i)) ∧ (rs (s + i)).length = 16) →
      t (CommandBuilder.read ((s + N) * 4)) = .error e →
      readBlocks t s b total = (concatBlocks rs s N, some e) := by
  intro N
  induction N with
  | zero =>
    intro s b total hNb htot h hfail
    obtain ⟨b', rfl⟩ : ∃ b', b = b' + 1 := ⟨b - 1, by omega⟩
    rw [show s + 0 = s from rfl] at hfail
    unfold readBlocks
    rw [hfail]
    rfl
  | succ N ih =>
    intro s b total hNb htot h hfail
    obtain ⟨b', rfl⟩ : ∃ b', b = b' + 1 := ⟨b - 1, by omega⟩
    obtain ⟨hr0, hlen0⟩ := h 0 (Nat.succ_pos N)
    rw [show s + 0 = s from rfl] at hr0 hlen0
    have hwanted : min 4 (total - s * 4) = 4 := by omega
    have hrest := ih (s + 1) b' total (by omega)
      (by rw [show s + 1 + N = s + (N + 1) by omega]; omega)
      (fun i hi => by
        have hh := h (i + 1) (by omega)
        rwa [show s + (i + 1) = s + 1 + i by omega] at hh)
      (by rwa [show s + 1 + N = s + (N + 1) by omega])
    unfold readBlocks
    rw [hr0, hwanted]
    dsimp only
    rw [ResponseParser.parsePages_ok (rs s) _ 4 (by omega), hrest]
    simp [concatBlocks, List.take_of_length_le (by omega : (rs s).length ≤ 4 * 4)]

theorem concatBlocks_length (rs : Nat → List Nat) :
    ∀ N s, (∀ i, i < N → (rs (s + i)).length = 16) → (concatBlocks rs s N).length = N * 16 := by
  intro N
  induction N with
  | zero => intro s h; rfl
  | succ N ih =>
    intro s h
    have h0 := h 0 (Nat.succ_pos N)
    rw [show s + 0 = s from rfl] at h0
    have hrest := ih (s + 1) (fun i hi => by
      have hh := h (i + 1) (by omega)
      rwa [show s + (i + 1) = s + 1 + i by omega] at hh)
    simp [concatBlocks, h0, hrest]
    omega

end MemoryDumpOrchestrator

/-- The spec's §8 GET_VERSION fixture `00 04 04 02 01 00 11 03`. -/
def fixtureVersionBytes : List Nat := [0x00, 0x04, 0x04, 0x02, 0x01, 0x00, 0x11, 0x03]

/-- The decoded form of the §8 fixture: an NTAG215-class tag. -/
def fixtureVersion : NtagVersionInfo :=
  { vendorId := 0x04, productType := 0x04, productSubtype := 0x02, majorVersion := 0x01,
    minorVersion := 0x00, storageSize := 0x11, protocolType := 0x03, icType := "NTAG215" }

/-- A successfully parsed version report carries exactly the icType resolved by
the registry from its own (productType, storageSize, productSubtype) fields. -/
theorem parseVersion_icType_resolved (bs : List Nat) (v : NtagVersionInfo)
    (h : ResponseParser.parseVersion bs = .ok v) :
    v.icType = (TagTypeRegistry.lookup v.productType v.storageSize v.productSubtype).icType := by
  unfold ResponseParser.parseVersion at h
  by_cases hl : bs.length = 8
  · simp [hl] at h
    subst h
    rfl
  · simp [hl] at h

/-- C6: CommandBuilder produces exactly the documented fixed command frames:
for all startPage in 0..255, read(startPage) is the two-byte frame
[0x30, startPage]; getVersion() is always [0x60]; readCounter() is always
[0x39, 0x02]; readSignature() is always [0x3C, 0x00]; construction is a pure
Lean function with no side effects. -/
theorem commandBuilder_fixed_frames (startPage : Nat) (h : startPage < 256) :
    CommandBuilder.read startPage = [0x30, startPage] ∧
    CommandBuilder.getVersion = [0x60] ∧
    CommandBuilder.readCounter = [0x39, 0x02] ∧
    CommandBuilder.readSignature = [0x3C, 0x00] :=
  ⟨rfl, rfl, rfl, rfl⟩

theorem commandBuilder_fixed_frames_witness :
    CommandBuilder.read 7 = [0x30, 7] ∧
    CommandBuilder.getVersion = [0x60] ∧
    CommandBuilder.readCounter = [0x39, 0x02] ∧
    CommandBuilder.readSignature = [0x3C, 0x00] :=
  commandBuilder_fixed_frames 7 (by decide)

/-- C8: for every valid 3-byte counter response, parseCounter (and hence
readNtagCounter) returns the big-endian 24-bit unsigned integer value, which
lies in 0..16777215; [0x00,0x01,0x2C] decodes to 300 and [0xFF,0xFF,0xFF] to
16777215. -/
theorem parseCounter_bigEndian_24bit :
    (∀ b0 b1 b2 : Nat, b0 < 256 → b1 < 256 → b2 < 256 →
      ResponseParser.parseCounter [b0, b1, b2] = .ok (b0 * 65536 + b1 * 256 + b2) ∧
      b0 * 65536 + b1 * 256 + b2 ≤ 16777215) ∧
    ResponseParser.parseCounter [0x00, 0x01, 0x2C] = .ok 300 ∧
    ResponseParser.parseCounter [0xFF, 0xFF, 0xFF] = .ok 16777215 ∧
    (∀ (t : Transceive) (r : List Nat), t CommandBuilder.readCounter = .ok r →
      Accessors.readNtagCounter t = ResponseParser.parseCounter r) := by
  refine ⟨?_, rfl, rfl, ?_⟩
  · intro b0 b1 b2 h0 h1 h2
    exact ⟨by simp [ResponseParser.parseCounter], by omega⟩
  · intro t r h
    simp [Accessors.readNtagCounter, h]

theorem parseCounter_bigEndian_24bit_witness :
    (ResponseParser.parseCounter [0x00, 0x01, 0x2C] = .ok (0 * 65536 + 1 * 256 + 0x2C) ∧
      0 * 65536 + 1 * 256 + 0x2C ≤ 16777215) ∧
    Accessors.readNtagCounter tagCounterDemo = ResponseParser.parseCounter [0x00, 0x01, 0x2C] :=
  ⟨parseCounter_bigEndian_24bit.1 0 1 0x2C (by decide) (by decide) (by decide),
   parseCounter_bigEndian_24bit.2.2.2 tagCounterDemo [0x00, 0x01, 0x2C] rfl⟩

/-- C9: each response parser enforces an exact response length and fails with
`MalformedResponseError` otherwise — parseVersion requires exactly 8 bytes,
parseCounter exactly 3, parseSignature exactly 32 — and on inputs of the exact
length none of them fails. -/
theorem parsers_enforce_exact_length :
    (∀ bs : List Nat, bs.length ≠ 8 → ∃ m, ResponseParser.parseVersion bs = .error (.malformedResponse m)) ∧
    (∀ bs : List Nat, bs.length = 8 → ∃ v, ResponseParser.parseVersion bs = .ok v) ∧
    (∀ bs : List Nat, bs.length ≠ 3 → ∃ m, ResponseParser.parseCounter bs = .error (.malformedResponse m)) ∧
    (∀ bs : List Nat, bs.length = 3 → ∃ n, ResponseParser.parseCounter bs = .ok n) ∧
    (∀ bs : List Nat, bs.length ≠ 32 → ∃ m, ResponseParser.parseSignature bs = .error (.malformedResponse m)) ∧
    (∀ bs : List Nat, bs.length = 32 → ResponseParser.parseSignature bs = .ok bs) := by
  refine ⟨?_, ?_, ?_, ?_, ?_, ?_⟩ <;> intro bs h
  · exact ⟨"GET_VERSION response must be 8 bytes", by simp [ResponseParser.parseVersion, h]⟩
  · unfold ResponseParser.parseVersion
    rw [if_pos h]
    exact ⟨_, rfl⟩
  · exact ⟨"READ_CNT response must be 3 bytes", by simp [ResponseParser.parseCounter, h]⟩
  · unfold ResponseParser.parseCounter
    rw [if_pos h]
    exact ⟨_, rfl⟩
  · exact ⟨"READ_SIG response must be 32 bytes", by simp [ResponseParser.parseSignature, h]⟩
  · simp [ResponseParser.parseSignature, h]

theorem parsers_enforce_exact_length_witness :
    (∃ m, ResponseParser.parseVersion [] = .error (.malformedResponse m)) ∧
    (∃ v, ResponseParser.parseVersion fixtureVersionBytes = .ok v) ∧
    (∃ m, ResponseParser.parseCounter [1, 2] = .error (.malformedResponse m)) ∧
    (∃ n, ResponseParser.parseCounter [1, 2, 3] = .ok n) ∧
    (∃ m, ResponseParser.parseSignature [0] = .error (.malformedResponse m)) ∧
    ResponseParser.parseSignature (List.replicate 32 0) = .ok (List.replicate 32 0) :=
  ⟨parsers_enforce_exact_length.1 [] (by decide),
   parsers_enforce_exact_length.2.1 fixtureVersionBytes (by decide),
   parsers_enforce_exact_length.2.2.1 [1, 2] (by decide),
   parsers_enforce_exact_length.2.2.2.1 [1, 2, 3] (by decide),
   parsers_enforce_exact_length.2.2.2.2.1 [0] (by decide),
   parsers_enforce_exact_length.2.2.2.2.2 (List.replicate 32 0) (by decide)⟩

/-- C4: the icType in every TagVersionInfo is a pure function of the triple
(productType, storageSize, productSubtype) resolved through the registry:
equal triples yield equal icType; a triple matching no registry entry resolves
to the "Unknown" descriptor with the conservative default page count 16; and
the 8-byte fixture 00 04 04 02 01 00 11 03 parsed by parseVersion resolves to
the NTAG215 descriptor. -/
theorem icType_pure_and_fallback :
    (∀ (b1 b2 : List Nat) (v1 v2 : NtagVersionInfo),
      ResponseParser.parseVersion b1 = .ok v1 → ResponseParser.parseVersion b2 = .ok v2 →
      v1.productType = v2.productType → v1.storageSize = v2.storageSize →
      v1.productSubtype = v2.productSubtype → v1.icType = v2.icType) ∧
    (∀ productType storageSize productSubtype : Nat,
      TagTypeRegistry.findEntry productType storageSize = none →
      TagTypeRegistry.lookup productType storageSize productSubtype = TagTypeRegistry.unknownDescriptor ∧
      (TagTypeRegistry.lookup productType storageSize productSubtype).icType = "Unknown" ∧
      (TagTypeRegistry.lookup productType storageSize productSubtype).totalPages = 16) ∧
    (ResponseParser.parseVersion fixtureVersionBytes = .ok fixtureVersion ∧
      fixtureVersion.icType = "NTAG215" ∧ fixtureVersion.productType = 0x04 ∧
      fixtureVersion.storageSize = 0x11) := by
  refine ⟨?_, ?_, rfl, rfl, rfl, rfl⟩
  · intro b1 b2 v1 v2 h1 h2 hp hs hst
    rw [parseVersion_icType_resolved b1 v1 h1, parseVersion_icType_resolved b2 v2 h2, hp, hs, hst]
  · intro p s st h
    refine ⟨?_, ?_, ?_⟩ <;> simp [TagTypeRegistry.lookup, h] <;> rfl

theorem icType_pure_and_fallback_witness :
    fixtureVersion.icType = fixtureVersion.icType ∧
    TagTypeRegistry.lookup 9 9 9 = TagTypeRegistry.unknownDescriptor :=
  ⟨icType_pure_and_fallback.1 fixtureVersionBytes fixtureVersionBytes fixtureVersion fixtureVersion
      rfl rfl rfl rfl rfl,
   (icType_pure_and_fallback.2.1 9 9 9 (by decide)).1⟩

/-- A tag that answers every READ with 16 zero bytes; reading the default
config pages of an unknown tag therefore decodes an all-zero configuration. -/
def tagConfigDemo : Transceive := fun c =>
  if c.getD 0 0 = 0x30 then .ok (List.replicate 16 0x00)
  else .error (.tagCommunication "timeout")

/-- The protection-status invariant of C5, as a reusable predicate over a
status and the descriptor it was decoded against. -/
def protectionInvariant (st : PasswordProtectionStatus) (d : TagTypeDescriptor) : Prop :=
  st.authLimitCounter ≤ 7 ∧
  (st.isProtected = true ↔
    (st.protectionStartPage < d.totalPages ∧
      (st.readProtected = true ∨ st.writeProtected = true)))

/-- Any output of the analyzer satisfies the protection-status invariant. -/
theorem analyze_protectionInvariant (cfg : List Nat) (d : TagTypeDescriptor) :
    protectionInvariant (PasswordProtectionAnalyzer.analyze cfg d) d := by
  constructor
  · simp [PasswordProtectionAnalyzer.analyze]
    omega
  · by_cases hact : cfg.getD 3 0xFF < d.totalPages <;>
      simp [PasswordProtectionAnalyzer.analyze, hact]

/-- C5: every PasswordProtectionStatus produced by analyze (and hence by
getPasswordProtectionStatus) satisfies: authLimitCounter lies in 0..7 because
it decodes a 3-bit field, and isProtected is true iff protectionStartPage is
within the valid page range AND at least one of readProtected/writeProtected
is set. -/
theorem passwordProtection_invariant :
    (∀ (cfg : List Nat) (d : TagTypeDescriptor),
      protectionInvariant (PasswordProtectionAnalyzer.analyze cfg d) d) ∧
    (∀ (t : Transceive) (d : TagTypeDescriptor) (p : Option Nat) (st : PasswordProtectionStatus),
      Accessors.getPasswordProtectionStatus t d p = .ok st → protectionInvariant st d) := by
  refine ⟨analyze_protectionInvariant, ?_⟩
  intro t d p st h
  unfold Accessors.getPasswordProtectionStatus at h
  cases ht : t (CommandBuilder.read (p.getD d.defaultConfigPageOffset)) with
  | error e => rw [ht] at h; cases h
  | ok resp =>
    rw [ht] at h
    dsimp only at h
    cases hp : ResponseParser.parsePages resp (p.getD d.defaultConfigPageOffset) 2 with
    | error e => rw [hp] at h; cases h
    | ok bytes =>
      rw [hp] at h
      dsimp only at h
      cases h
      exact analyze_protectionInvariant bytes d

theorem passwordProtection_invariant_witness :
    protectionInvariant
      (PasswordProtectionAnalyzer.analyze ((List.replicate 16 0x00).take 8) TagTypeRegistry.unknownDescriptor)
      TagTypeRegistry.unknownDescriptor :=
  passwordProtection_invariant.2 tagConfigDemo TagTypeRegistry.unknownDescriptor none
    (PasswordProtectionAnalyzer.analyze ((List.replicate 16 0x00).take 8) TagTypeRegistry.unknownDescriptor)
    rfl

/-- C7: parsePages (and hence readMemoryPages) truncates each 16-byte READ
response to the caller's requested page count — a 16-byte response with
requestedPageCount=2 yields exactly the first 8 bytes — and a response shorter
than the expected 16-byte frame fails with TagCommunicationError rather than
being silently zero-padded. -/
theorem parsePages_truncates_to_requested :
    (∀ (bytes : List Nat) (s c : Nat), 16 ≤ bytes.length →
      ResponseParser.parsePages bytes s c = .ok (bytes.take (4 * c))) ∧
    (∀ (bytes : List Nat) (s : Nat), bytes.length = 16 →
      ResponseParser.parsePages bytes s 2 = .ok (bytes.take 8) ∧ (bytes.take 8).length = 8) ∧
    (∀ (bytes : List Nat) (s c : Nat), bytes.length < 16 →
      ResponseParser.parsePages bytes s c = .error (.tagCommunication "READ response shorter than 16 bytes")) ∧
    (∀ (t : Transceive) (s : Nat) (resp : List Nat),
      t (CommandBuilder.read s) = .ok resp → resp.length = 16 →
      Accessors.readMemoryPages t s 2 = .ok (resp.take 8)) := by
  refine ⟨ResponseParser.parsePages_ok, ?_, ResponseParser.parsePages_short, ?_⟩
  · intro bytes s h
    constructor
    · rw [ResponseParser.parsePages_ok bytes s 2 (by omega)]
    · simp [List.length_take, h]
  · intro t s resp ht hlen
    unfold Accessors.readMemoryPages Accessors.readMemoryPagesAux
    rw [ht]
    dsimp only
    rw [ResponseParser.parsePages_ok resp s (min 4 2) (by omega)]
    simp [Accessors.readMemoryPagesAux]

theorem parsePages_truncates_to_requested_witness :
    (ResponseParser.parsePages (List.range 16) 5 2 = .ok ((List.range 16).take 8) ∧
      ((List.range 16).take 8).length = 8) ∧
    (ResponseParser.parsePages [0x01, 0x02] 0 4 =
      .error (.tagCommunication "READ response shorter than 16 bytes")) ∧
    Accessors.readMemoryPages tagPagesDemo 5 2 = .ok ((List.range 16).take 8) :=
  ⟨parsePages_truncates_to_requested.2.1 (List.range 16) 5 (by decide),
   parsePages_truncates_to_requested.2.2.1 [0x01, 0x02] 0 4 (by decide),
   parsePages_truncates_to_requested.2.2.2 tagPagesDemo 5 (List.range 16) rfl (by decide)⟩

/-- Every rendered error message is non-empty (it starts with its classifying
prefix). -/
theorem message_length_pos (e : TagError) : 0 < (TagError.message e).length := by
  cases e <;> simp [TagError.message, String.length_append] <;> left <;> decide

/-- C1: for every completed fullMemoryDump (Complete or PartialFailure), the
result's hexDump is the lowercase, no-separator hex encoding of the
accumulated buffer — 2 hex characters per byte, length 2 × byte count,
decoding back to the identical byte sequence — and success is true iff the
accumulated byte count equals totalPages × 4 and no command error was
recorded. -/
theorem fullMemoryDump_hex_contract (t : Transceive)
    (hbytes : ∀ c r, t c = .ok r → ∀ b ∈ r, b < 256) :
    (MemoryDumpOrchestrator.fullMemoryDump t).hexDump =
      NfcUtil.bytesToHexString (MemoryDumpOrchestrator.dumpRun t).1 ∧
    (MemoryDumpOrchestrator.fullMemoryDump t).hexDump.length =
      2 * (MemoryDumpOrchestrator.dumpRun t).1.length ∧
    NfcUtil.hexDecode (MemoryDumpOrchestrator.fullMemoryDump t).hexDump =
      some (MemoryDumpOrchestrator.dumpRun t).1 ∧
    (MemoryDumpOrchestrator.fullMemoryDump t).hexDump.data.all NfcUtil.isLowerHexDigit = true ∧
    ((MemoryDumpOrchestrator.fullMemoryDump t).success = true ↔
      ((MemoryDumpOrchestrator.dumpRun t).1.length =
        (MemoryDumpOrchestrator.fullMemoryDump t).totalPages * 4 ∧
       (MemoryDumpOrchestrator.fullMemoryDump t).error = none)) := by
  have hmem : ∀ b ∈ (MemoryDumpOrchestrator.dumpRun t).1, b < 256 := by
    intro b hb
    unfold MemoryDumpOrchestrator.dumpRun at hb
    obtain ⟨c, r, hcr, hbr⟩ := MemoryDumpOrchestrator.readBlocks_mem t _ _ _ b hb
    exact hbytes c r hcr b hbr
  refine ⟨rfl, NfcUtil.bytesToHexString_length _, NfcUtil.hexDecode_bytesToHexString _ hmem,
    NfcUtil.bytesToHexChars_all_lower _ hmem, ?_⟩
  simp [MemoryDumpOrchestrator.fullMemoryDump, Bool.and_eq_true, beq_iff_eq,
    Option.isNone_iff_eq_none, Option.map_eq_none']

theorem fullMemoryDump_hex_contract_witness :
    (MemoryDumpOrchestrator.fullMemoryDump tagHexDemo).hexDump =
      NfcUtil.bytesToHexString (MemoryDumpOrchestrator.dumpRun tagHexDemo).1 ∧
    (MemoryDumpOrchestrator.fullMemoryDump tagHexDemo).hexDump.length =
      2 * (MemoryDumpOrchestrator.dumpRun tagHexDemo).1.length ∧
    NfcUtil.hexDecode (MemoryDumpOrchestrator.fullMemoryDump tagHexDemo).hexDump =
      some (MemoryDumpOrchestrator.dumpRun tagHexDemo).1 ∧
    (MemoryDumpOrchestrator.fullMemoryDump tagHexDemo).hexDump.data.all NfcUtil.isLowerHexDigit = true ∧
    ((MemoryDumpOrchestrator.fullMemoryDump tagHexDemo).success = true ↔
      ((MemoryDumpOrchestrator.dumpRun tagHexDemo).1.length =
        (MemoryDumpOrchestrator.fullMemoryDump tagHexDemo).totalPages * 4 ∧
       (MemoryDumpOrchestrator.fullMemoryDump tagHexDemo).error = none)) :=
  fullMemoryDump_hex_contract tagHexDemo (fun c r hcr b hb => by
    unfold tagHexDemo at hcr
    split at hcr
    · cases hcr
      have hb171 := List.eq_of_mem_replicate hb
      omega
    · cases hcr)

/-- C2: when the GET_VERSION step fails (tag NAK, timeout, or malformed
response), the orchestrator does not abort: it continues with
tagType = "Unknown" and the conservative fallback page count 16, and if every
subsequent paged READ up to that fallback page count succeeds, the result has
tagType="Unknown", success=true, and a buffer of exactly fallbackPages × 4
bytes. -/
theorem fullMemoryDump_version_fallback (t : Transceive)
    (hv : ∀ r v, t CommandBuilder.getVersion = .ok r → ResponseParser.parseVersion r ≠ .ok v)
    (hr : ∀ i, i < 4 → ∃ resp, t (CommandBuilder.read (i * 4)) = .ok resp ∧ resp.length = 16) :
    (MemoryDumpOrchestrator.fullMemoryDump t).tagType = "Unknown" ∧
    (MemoryDumpOrchestrator.fullMemoryDump t).totalPages = TagTypeRegistry.unknownDescriptor.totalPages ∧
    (MemoryDumpOrchestrator.fullMemoryDump t).success = true ∧
    (MemoryDumpOrchestrator.dumpRun t).1.length = TagTypeRegistry.unknownDescriptor.totalPages * 4 ∧
    (MemoryDumpOrchestrator.fullMemoryDump t).memoryDump = some (MemoryDumpOrchestrator.dumpRun t).1 := by
  have hvd : MemoryDumpOrchestrator.versionDetect t = ("Unknown", none, 16) := by
    unfold MemoryDumpOrchestrator.versionDetect
    cases hg : t CommandBuilder.getVersion with
    | error e => rfl
    | ok r =>
      dsimp only
      cases hp : ResponseParser.parseVersion r with
      | error e => rfl
      | ok v => exact absurd hp (hv r v hg)
  have hrun : MemoryDumpOrchestrator.dumpRun t = MemoryDumpOrchestrator.readBlocks t 0 4 16 := by
    unfold MemoryDumpOrchestrator.dumpRun
    rw [hvd]
    rfl
  have hball := MemoryDumpOrchestrator.readBlocks_allOk t 4 0 16
    (fun i hi => by simpa using hr i hi) (by omega)
  have hlen : (MemoryDumpOrchestrator.dumpRun t).1.length = 64 := by rw [hrun]; exact hball.1
  have hnone : (MemoryDumpOrchestrator.dumpRun t).2 = none := by rw [hrun]; exact hball.2
  have hne : (MemoryDumpOrchestrator.dumpRun t).1 ≠ [] := by
    intro hcontra
    rw [hcontra] at hlen
    simp at hlen
  refine ⟨?_, ?_, ?_, ?_, ?_⟩ <;>
    simp [MemoryDumpOrchestrator.fullMemoryDump, TagTypeRegistry.unknownDescriptor, hvd, hlen, hnone, hne]

theorem fullMemoryDump_version_fallback_witness :
    (MemoryDumpOrchestrator.fullMemoryDump tagVersionNak).tagType = "Unknown" ∧
    (MemoryDumpOrchestrator.fullMemoryDump tagVersionNak).totalPages = TagTypeRegistry.unknownDescriptor.totalPages ∧
    (MemoryDumpOrchestrator.fullMemoryDump tagVersionNak).success = true ∧
    (MemoryDumpOrchestrator.dumpRun tagVersionNak).1.length = TagTypeRegistry.unknownDescriptor.totalPages * 4 ∧
    (MemoryDumpOrchestrator.fullMemoryDump tagVersionNak).memoryDump = some (MemoryDumpOrchestrator.dumpRun tagVersionNak).1 :=
  fullMemoryDump_version_fallback tagVersionNak
    (fun r v h => by simp [tagVersionNak, CommandBuilder.getVersion] at h)
    (fun i hi => ⟨List.replicate 16 0x5A, rfl, by simp⟩)

/-- C3: when a READ fails after N successful 4-page blocks, the paged-read
loop stops, all bytes collected so far are kept, and the result has
success=false, a non-empty error field, and a buffer of exactly N × 16 bytes
preserving the original page order; the failure is recorded in the result
rather than raised. -/
theorem fullMemoryDump_read_failure_partial (t : Transceive) (rs : Nat → List Nat) (e : TagError) (N : Nat)
    (hN : N < (((MemoryDumpOrchestrator.versionDetect t).2.2) + 3) / 4)
    (hok : ∀ i, i < N → t (CommandBuilder.read (i * 4)) = .ok (rs i) ∧ (rs i).length = 16)
    (hfail : t (CommandBuilder.read (N * 4)) = .error e) :
    (MemoryDumpOrchestrator.fullMemoryDump t).success = false ∧
    (MemoryDumpOrchestrator.fullMemoryDump t).error = some (TagError.message e) ∧
    0 < ((MemoryDumpOrchestrator.fullMemoryDump t).error.getD "").length ∧
    (MemoryDumpOrchestrator.dumpRun t).1 = concatBlocks rs 0 N ∧
    (MemoryDumpOrchestrator.dumpRun t).1.length = N * 16 := by
  have h4N : N * 4 < (MemoryDumpOrchestrator.versionDetect t).2.2 := by omega
  have hstop := MemoryDumpOrchestrator.readBlocks_stopsAt t rs e N 0
    ((((MemoryDumpOrchestrator.versionDetect t).2.2) + 3) / 4)
    ((MemoryDumpOrchestrator.versionDetect t).2.2)
    hN (by omega) (fun i hi => by simpa using hok i hi) (by simpa using hfail)
  have hrun : MemoryDumpOrchestrator.dumpRun t = (concatBlocks rs 0 N, some e) := by
    unfold MemoryDumpOrchestrator.dumpRun
    exact hstop
  have hclen : (concatBlocks rs 0 N).length = N * 16 :=
    MemoryDumpOrchestrator.concatBlocks_length rs N 0 (fun i hi => by simpa using (hok i hi).2)
  refine ⟨?_, ?_, ?_, ?_, ?_⟩
  · simp [MemoryDumpOrchestrator.fullMemoryDump, hrun]
  · simp [MemoryDumpOrchestrator.fullMemoryDump, hrun]
  · simp [MemoryDumpOrchestrator.fullMemoryDump, hrun]
    exact message_length_pos e
  · rw [hrun]
  · rw [hrun]
    exact hclen

theorem fullMemoryDump_read_failure_partial_witness :
    (MemoryDumpOrchestrator.fullMemoryDump tagReadTimeout).success = false ∧
    (MemoryDumpOrchestrator.fullMemoryDump tagReadTimeout).error =
      some (TagError.message (.tagCommunication "timeout")) ∧
    0 < ((MemoryDumpOrchestrator.fullMemoryDump tagReadTimeout).error.getD "").length ∧
    (MemoryDumpOrchestrator.dumpRun tagReadTimeout).1 =
      concatBlocks (fun _ => List.replicate 16 0x07) 0 1 ∧
    (MemoryDumpOrchestrator.dumpRun tagReadTimeout).1.length = 1 * 16 :=
  fullMemoryDump_read_failure_partial tagReadTimeout (fun _ => List.replicate 16 0x07)
    (.tagCommunication "timeout") 1
    (by decide)
    (fun i hi => by
      match i, hi with
      | 0, _ => exact ⟨rfl, rfl⟩)
    rfl

/-- C10: the fullMemoryDump result's memoryDump field is nullable: when no
page bytes were collected the returned memoryDump is null rather than an
empty buffer (while hexDump is still a string, the empty one), so every
caller must handle a null memoryDump. -/
theorem memoryDump_nullable :
    (∀ t : Transceive,
      ((MemoryDumpOrchestrator.dumpRun t).1 = [] →
        (MemoryDumpOrchestrator.fullMemoryDump t).memoryDump = none) ∧
      ((MemoryDumpOrchestrator.dumpRun t).1 ≠ [] →
        (MemoryDumpOrchestrator.fullMemoryDump t).memoryDump =
          some (MemoryDumpOrchestrator.dumpRun t).1)) ∧
    (MemoryDumpOrchestrator.fullMemoryDump tagDead).memoryDump = none ∧
    (MemoryDumpOrchestrator.fullMemoryDump tagDead).hexDump = "" ∧
    (MemoryDumpOrchestrator.fullMemoryDump tagDead).success = false := by
  refine ⟨fun t => ⟨fun h => ?_, fun h => ?_⟩, rfl, rfl, rfl⟩
  · simp [MemoryDumpOrchestrator.fullMemoryDump, h]
  · simp [MemoryDumpOrchestrator.fullMemoryDump, h]

theorem memoryDump_nullable_witness :
    (MemoryDumpOrchestrator.fullMemoryDump tagDead).memoryDump = none :=
  (memoryDump_nullable.1 tagDead).1 rfl
